import Mathlib

/-!
Verification of the quiz-analyzer hotkey subsystem.

Shallow embedding of:
* `src/hotkey/hotkey_config.py` — `HotkeyConfig` (stored settings, getters
  with default fallback, activation-key derivation);
* `src/hotkey/hotkey_service.py` — `HotkeyService` (per-key press tracking,
  release handling, and the capture → analyze → email action sequence);
* `src/gui/app_window.py` — `MainWindow.capture_screen`, `send_to_claude`,
  `_send_to_claude_async`, `send_by_email`, `_send_email_async` (the three
  stage collaborators, modelled for the hotkey path `emit_signal=True`,
  `show_dialog=False`);
* `src/gui/recipient_manager.py` — `Recipient` and `RecipientManager`.

Wall-clock timestamps (`time.time()`) are modelled as rationals; the
wall-clock minute (`datetime.now().minute`) as a natural number.  The Qt
event loop is modelled as a FIFO list of pending scheduled tasks
(`QTimer.singleShot` callbacks); Qt signal emission with a direct
(same-thread) connection runs the connected handler synchronously at the
emission point, which is how `capture_completed` / `claude_completed` /
`email_completed` reach the `HotkeyService` handlers.
-/

/-! ## Configuration (`hotkey_config.py`) -/

/-- Stored state of the `Hotkeys` section of `hotkey_config.ini`: the raw
string value of each option, `none` when the option is absent
(`configparser.NoOptionError`). -/
structure HotkeyConfig where
  enabled : Option String
  hold_duration : Option String
  deriving Repr, DecidableEq

/-- Python `str.strip()` (both-ends whitespace removal), at character
level. -/
def pyStrip (cs : List Char) : List Char :=
  ((cs.dropWhile Char.isWhitespace).reverse.dropWhile Char.isWhitespace).reverse

/-- Python `str.split(c)` for a one-character separator, at character
level: `"".split(',') = [""]`, `",".split(',') = ["", ""]`. -/
def pySplitChar (c : Char) : List Char → List (List Char)
  | [] => [[]]
  | x :: rest =>
      if x == c then [] :: pySplitChar c rest
      else
        match pySplitChar c rest with
        | [] => [[x]]
        | h :: t => (x :: h) :: t

/-- Python `str.lower()` (ASCII case folding), at character level. -/
def pyLower (cs : List Char) : List Char :=
  cs.map Char.toLower

/-- Python `float(s)` on a decimal string, as used by `get_hold_duration`:
optional surrounding spaces, optional sign, digits with an optional
fractional part (at least one digit overall).  `none` models `ValueError`. -/
def pyFloatDigits (cs : List Char) : Option Nat :=
  if cs ≠ [] ∧ cs.all Char.isDigit then
    some (cs.foldl (fun a c => a * 10 + (c.toNat - '0'.toNat)) 0)
  else none

/-- Fractional part digits: value as numerator over `10 ^ length`. -/
def pyFloatFrac (cs : List Char) : Option ℚ := do
  let n ← pyFloatDigits cs
  pure ((n : ℚ) / (10 : ℚ) ^ cs.length)

/-- Unsigned decimal: `"12"`, `"12.5"`, `"12."`, `".5"`. -/
def pyFloatUnsigned (cs : List Char) : Option ℚ :=
  match cs.splitOn '.' with
  | [intPart] => do
      let n ← pyFloatDigits intPart
      pure (n : ℚ)
  | [intPart, fracPart] =>
      match intPart, fracPart with
      | [], [] => none
      | [], f => pyFloatFrac f
      | i, [] => do
          let n ← pyFloatDigits i
          pure (n : ℚ)
      | i, f => do
          let n ← pyFloatDigits i
          let q ← pyFloatFrac f
          pure ((n : ℚ) + q)
  | _ => none

/-- Python `float` applied to a string (decimal literals; exponent and
inf/nan forms are out of scope — they do not occur in this configuration
file). -/
def pyFloat (s : String) : Option ℚ :=
  match pyStrip s.toList with
  | '+' :: cs => pyFloatUnsigned cs
  | '-' :: cs => do
      let q ← pyFloatUnsigned cs
      pure (-q)
  | cs => pyFloatUnsigned cs

/-- `HotkeyConfig.DEFAULT_HOLD_DURATION = 2` (seconds). -/
def DEFAULT_HOLD_DURATION : ℚ := 2

/-- `HotkeyConfig.get_hold_duration`: `float` of the stored value, falling
back to the default when the option is missing (`NoOptionError`) or does
not parse as a float (`ValueError`). -/
def get_hold_duration (cfg : HotkeyConfig) : ℚ :=
  match cfg.hold_duration with
  | none => DEFAULT_HOLD_DURATION
  | some s =>
      match pyFloat s with
      | none => DEFAULT_HOLD_DURATION
      | some q => q

/-- `HotkeyConfig.is_enabled`: `stored.lower() == 'true'`, defaulting to
`true` only when the option is missing (`NoOptionError`). -/
def is_enabled (cfg : HotkeyConfig) : Bool :=
  match cfg.enabled with
  | none => true
  | some s => pyLower s.toList == "true".toList

/-- `HotkeyConfig.get_activation_key`: the ones digit of the current
wall-clock minute, as a one-character string. -/
def get_activation_key (minute : Nat) : String :=
  toString (minute % 10)

/-! ## Key press/release tracking (`hotkey_service.py`) -/

/-- `HotkeyService.number_keys = ['0', ..., '9']`. -/
def number_keys : List String :=
  ["0", "1", "2", "3", "4", "5", "6", "7", "8", "9"]

/-- The key-tracking state of `HotkeyService`: `key_press_times`, a mapping
from key string to press timestamp (Python dict, modelled as an
association list with pairwise-distinct keys on reachable states). -/
structure KeyTracker where
  key_press_times : List (String × ℚ)
  deriving Repr, DecidableEq

/-- `HotkeyService.on_key_press` (for a character key `key`): when enabled
and `key` is a digit key with no outstanding press record, record `now`;
otherwise leave the state unchanged. -/
def on_key_press (cfg : HotkeyConfig) (now : ℚ) (key : String)
    (st : KeyTracker) : KeyTracker :=
  if is_enabled cfg = false then st
  else if key ∈ number_keys then
    match st.key_press_times.lookup key with
    | some _ => st
    | none => { key_press_times := st.key_press_times ++ [(key, now)] }
  else st

/-- `HotkeyService.on_key_release` (for a character key `key`, released at
wall-clock minute `minute` and timestamp `now`): when enabled and `key` is
tracked, compute the hold duration, drop the record, and report whether
`trigger_action_sequence` is called, i.e. whether `key` equals the
activation key derived from the release-time minute and the hold lasted at
least the configured duration.  Returns the new tracker state and that
trigger decision. -/
def on_key_release (cfg : HotkeyConfig) (minute : Nat) (now : ℚ)
    (key : String) (st : KeyTracker) : KeyTracker × Bool :=
  if is_enabled cfg = false then (st, false)
  else
    match st.key_press_times.lookup key with
    | none => (st, false)
    | some press_time =>
        let hold_duration := now - press_time
        let st2 : KeyTracker :=
          { key_press_times := st.key_press_times.filter (fun p => p.1 != key) }
        let activation_key := get_activation_key minute
        if key = activation_key ∧ hold_duration ≥ get_hold_duration cfg then
          (st2, true)
        else
          (st2, false)

/-! ## The action sequence (`hotkey_service.py` + `app_window.py`)

The three stages of the pipeline. -/

/-- A pipeline stage. -/
inductive Stage
  | capture
  | claude
  | email
  deriving Repr, DecidableEq

/-- Qt signals emitted by `MainWindow` and observed by `HotkeyService`:
`capture_completed`, `claude_completed`, `email_completed`, each carrying
a success flag. -/
inductive Sig
  | captureCompleted (success : Bool)
  | claudeCompleted (success : Bool)
  | emailCompleted (success : Bool)
  deriving Repr, DecidableEq

/-- Callbacks scheduled on the Qt event loop via `QTimer.singleShot`:
the three `HotkeyService.start_*` continuations and the deferred
`MainWindow._send_to_claude_async` call (which closes over the
`emit_signal` argument it was scheduled with). -/
inductive SchedTask
  | startCapture
  | startClaude
  | startEmail
  | claudeAsync (emit_signal : Bool)
  deriving Repr, DecidableEq

/-- Events observed by the coordinator, in observation order:
`invoke s` when `HotkeyService` calls stage `s`'s collaborator, and
`completed s b` when the corresponding completion handler runs with
success flag `b`. -/
inductive Ev
  | invoke (s : Stage)
  | completed (s : Stage) (success : Bool)
  deriving Repr, DecidableEq

/-- Behaviour of the external collaborators for one run (§ "out of scope"
collaborators of the spec — capture, OCR/LLM, SMTP):
* `captureOk` — whether `capture_screen` succeeds (it is fully synchronous);
* `claudeImmediateOk` — `claude_client` initialized and question text
  non-empty (else `send_to_claude` fails on the same call stack);
* `claudeAsyncOk` — outcome of the deferred `ask_question` API call;
* `emailSenderOk` — `email_sender` initialized;
* `contentOk` — both question text and answer text non-empty;
* `recipients` — number of checked-and-valid stored recipients;
* `emailSendOk i` — outcome of `send_quiz_answer` for the `i`-th recipient. -/
structure Env where
  captureOk : Bool
  claudeImmediateOk : Bool
  claudeAsyncOk : Bool
  emailSenderOk : Bool
  contentOk : Bool
  recipients : Nat
  emailSendOk : Nat → Bool

/-- Coordinator state: the `sequence_in_progress` flag of `HotkeyService`,
the FIFO queue of tasks scheduled on the Qt event loop, and the
accumulated event trace. -/
structure St where
  sequence_in_progress : Bool
  pending : List SchedTask
  trace : List Ev
  deriving Repr, DecidableEq

/-- The state at process start: idle, nothing scheduled. -/
def initSt : St := { sequence_in_progress := false, pending := [], trace := [] }

/-! ### Collaborator calls (`app_window.py`)

Each returns the completion signals it emits synchronously, any event-loop
task it schedules, and its immediate boolean result. -/

/-- `MainWindow.capture_screen(emit_signal)`: captures synchronously with
result `env.captureOk`; when `emit_signal`, emits `capture_completed` with
that result before returning it. -/
def capture_screen (env : Env) (emit_signal : Bool) : List Sig × Bool :=
  ((if emit_signal then [Sig.captureCompleted env.captureOk] else []),
   env.captureOk)

/-- `MainWindow.send_to_claude(emit_signal)`: on immediate failure
(uninitialized client or empty question text) emits
`claude_completed(False)` when `emit_signal` and returns `False`;
otherwise schedules `_send_to_claude_async` on the event loop and
returns `True`. -/
def send_to_claude (env : Env) (emit_signal : Bool) :
    List Sig × List SchedTask × Bool :=
  if env.claudeImmediateOk then
    ([], [SchedTask.claudeAsync emit_signal], true)
  else
    ((if emit_signal then [Sig.claudeCompleted false] else []), [], false)

/-- `MainWindow._send_to_claude_async(..., emit_signal)`: performs the API
call with result `env.claudeAsyncOk` and, when `emit_signal`, emits
`claude_completed` with that result. -/
def send_to_claude_async (env : Env) (emit_signal : Bool) : List Sig :=
  if emit_signal then [Sig.claudeCompleted env.claudeAsyncOk] else []

/-- `MainWindow._send_email_async(recipient i, ..., emit_signal)`: sends to
the `i`-th recipient with result `env.emailSendOk i` and, when
`emit_signal`, emits `email_completed` with that result. -/
def send_email_async (env : Env) (i : Nat) (emit_signal : Bool) : List Sig :=
  if emit_signal then [Sig.emailCompleted (env.emailSendOk i)] else []

/-- `MainWindow.send_by_email(show_dialog=False, emit_signal)` (the
automatic mode used by the hotkey sequence): immediate failures
(uninitialized sender, missing content, empty checked-recipient list)
emit `email_completed(False)` — unconditionally, not gated on
`emit_signal` — and return `False`; otherwise `_send_email_async` is
called directly (no timer) for each checked recipient and the call
returns `True`. -/
def send_by_email (env : Env) (emit_signal : Bool) : List Sig × Bool :=
  if env.emailSenderOk = false then ([Sig.emailCompleted false], false)
  else if env.contentOk = false then ([Sig.emailCompleted false], false)
  else if env.recipients = 0 then ([Sig.emailCompleted false], false)
  else
    ((List.range env.recipients).flatMap
        (fun i => send_email_async env i emit_signal),
     true)

/-! ### Completion handlers and stage starters (`hotkey_service.py`) -/

/-- `HotkeyService.on_capture_completed(success)`: on failure, end the
sequence; on success, schedule `start_claude_analysis` (100 ms timer). -/
def on_capture_completed (success : Bool) (st : St) : St :=
  let st1 := { st with trace := st.trace ++ [Ev.completed Stage.capture success] }
  if success = false then { st1 with sequence_in_progress := false }
  else { st1 with pending := st1.pending ++ [SchedTask.startClaude] }

/-- `HotkeyService.on_claude_completed(success)`: on failure, end the
sequence; on success, schedule `start_email_sending` (100 ms timer). -/
def on_claude_completed (success : Bool) (st : St) : St :=
  let st1 := { st with trace := st.trace ++ [Ev.completed Stage.claude success] }
  if success = false then { st1 with sequence_in_progress := false }
  else { st1 with pending := st1.pending ++ [SchedTask.startEmail] }

/-- `HotkeyService.on_email_completed(success)`: terminal stage — the
sequence ends regardless of success. -/
def on_email_completed (success : Bool) (st : St) : St :=
  { st with
    sequence_in_progress := false,
    trace := st.trace ++ [Ev.completed Stage.email success] }

/-- Dispatch one emitted signal to its connected `HotkeyService` handler
(Qt direct connection: the handler runs synchronously at the emit). -/
def dispatchSig (st : St) : Sig → St
  | Sig.captureCompleted b => on_capture_completed b st
  | Sig.claudeCompleted b => on_claude_completed b st
  | Sig.emailCompleted b => on_email_completed b st

/-- Dispatch a list of signals in emission order. -/
def dispatchAll (st : St) (sigs : List Sig) : St :=
  sigs.foldl dispatchSig st

/-- `HotkeyService.start_capture`: call `capture_screen(emit_signal=True)`
(recording the invocation); its emitted signals run synchronously; if it
returned `False` immediately, clear `sequence_in_progress`. -/
def start_capture (env : Env) (st : St) : St :=
  let st1 := { st with trace := st.trace ++ [Ev.invoke Stage.capture] }
  let r := capture_screen env true
  let st2 := dispatchAll st1 r.1
  if r.2 = false then { st2 with sequence_in_progress := false } else st2

/-- `HotkeyService.start_claude_analysis`: call
`send_to_claude(emit_signal=True)` (recording the invocation); enqueue
any task it schedules, run its emitted signals; if it returned `False`
immediately, clear `sequence_in_progress`. -/
def start_claude_analysis (env : Env) (st : St) : St :=
  let st1 := { st with trace := st.trace ++ [Ev.invoke Stage.claude] }
  let r := send_to_claude env true
  let st2 := { st1 with pending := st1.pending ++ r.2.1 }
  let st3 := dispatchAll st2 r.1
  if r.2.2 = false then { st3 with sequence_in_progress := false } else st3

/-- `HotkeyService.start_email_sending`: call
`send_by_email(show_dialog=False, emit_signal=True)` (recording the
invocation); its emitted signals run synchronously; if it returned
`False` immediately, clear `sequence_in_progress`. -/
def start_email_sending (env : Env) (st : St) : St :=
  let st1 := { st with trace := st.trace ++ [Ev.invoke Stage.email] }
  let r := send_by_email env true
  let st2 := dispatchAll st1 r.1
  if r.2 = false then { st2 with sequence_in_progress := false } else st2

/-- `HotkeyService.trigger_action_sequence`: if a sequence is already in
progress, ignore the request (no state change, nothing scheduled);
otherwise set the flag and schedule `start_capture` on the event loop. -/
def trigger_action_sequence (st : St) : St :=
  if st.sequence_in_progress then st
  else
    { st with
      sequence_in_progress := true,
      pending := st.pending ++ [SchedTask.startCapture] }

/-- Run one scheduled event-loop task. -/
def runTask (env : Env) : SchedTask → St → St
  | SchedTask.startCapture => start_capture env
  | SchedTask.startClaude => start_claude_analysis env
  | SchedTask.startEmail => start_email_sending env
  | SchedTask.claudeAsync emit => fun st =>
      dispatchAll st (send_to_claude_async env emit)

/-- One event-loop step: pop and run the next scheduled task, if any. -/
def step (env : Env) (st : St) : St :=
  match st.pending with
  | [] => st
  | t :: rest => runTask env t { st with pending := rest }

/-- Run `n` event-loop steps. -/
def run (env : Env) : Nat → St → St
  | 0, st => st
  | n + 1, st => step env (run env n st)

/-- A full triggered sequence from the idle state: trigger, then drain the
event loop (four steps always suffice; the theorems below conclude
`pending = []`, confirming the queue is drained). -/
def runFull (env : Env) : St :=
  run env 4 (trigger_action_sequence initSt)

/-! ## Recipients (`recipient_manager.py`) -/

/-- Character class `[a-zA-Z0-9._%+-]` (the local part of the email
regex). -/
def isLocalChar (c : Char) : Bool :=
  c.isAlphanum || c == '.' || c == '_' || c == '%' || c == '+' || c == '-'

/-- Character class `[a-zA-Z0-9.-]` (the domain part of the email
regex). -/
def isDomainChar (c : Char) : Bool :=
  c.isAlphanum || c == '.' || c == '-'

/-- The domain side of the pattern, `[a-zA-Z0-9.-]+\.[a-zA-Z]{2,}$`:
split at the last dot (the top-level-domain part admits no dot, so the
pattern's literal dot necessarily matches the last one), require a
non-empty all-domain-character part before it and at least two letters
after it, reaching the end of the string. -/
def validDomainPart (cs : List Char) : Bool :=
  match (cs.reverse.span (fun c => c != '.')) with
  | (tldRev, rest) =>
      match rest with
      | [] => false
      | _ :: domRev =>
          let dom := domRev.reverse
          let tld := tldRev.reverse
          decide (dom ≠ []) && dom.all isDomainChar &&
            decide (2 ≤ tld.length) && tld.all Char.isAlpha

/-- `Recipient._validate_email`:
`re.match(r'^[a-zA-Z0-9._%+-]+@[a-zA-Z0-9.-]+\.[a-zA-Z]{2,}$', email)`.
The local-part class admits no `@`, so the pattern's `@` necessarily
matches the first `@` of the string. -/
def validate_email (s : String) : Bool :=
  match (s.toList.span (fun c => c != '@')) with
  | (localPart, rest) =>
      match rest with
      | [] => false
      | _ :: domainPart =>
          decide (localPart ≠ []) && localPart.all isLocalChar &&
            validDomainPart domainPart

/-- A stored recipient record: name, email, checked flag, and the validity
flag computed by the `Recipient` constructor. -/
structure Recipient where
  name : String
  email : String
  checked : Bool
  valid : Bool
  deriving Repr, DecidableEq

/-- The `Recipient` constructor: `valid` is set from `_validate_email`. -/
def mkRecipient (name email : String) (checked : Bool) : Recipient :=
  { name := name, email := email, checked := checked,
    valid := validate_email email }

/-- Python `line.split(',', 2)`: at most two splits, the remainder kept
whole as the third part. -/
def pySplit2 (cs : List Char) : List (List Char) :=
  let parts := pySplitChar ',' cs
  if parts.length ≤ 3 then parts
  else parts.take 2 ++ [List.intercalate [','] (parts.drop 2)]

/-- `Recipient.from_line`: strip the line, split on the first two commas;
require at least name and email; the checked flag is the third part
lower-cased compared to `"true"`, defaulting to `false` when absent. -/
def from_line (line : String) : Option Recipient :=
  let parts := pySplit2 (pyStrip line.toList)
  if h : parts.length < 2 then none
  else
    let name := String.mk (parts.get ⟨0, by omega⟩)
    let email := String.mk (parts.get ⟨1, by omega⟩)
    let checked :=
      if h3 : 3 ≤ parts.length then
        pyLower (parts.get ⟨2, by omega⟩) == "true".toList
      else false
    some (mkRecipient name email checked)

/-- `RecipientManager.load_recipients` on the lines of the store file:
parse each line, dropping the ones `from_line` rejects. -/
def load_recipients (lines : List String) : List Recipient :=
  lines.filterMap from_line

/-- `RecipientManager.get_checked_recipients`: the stored recipients that
are both checked and valid. -/
def get_checked_recipients (recipients : List Recipient) : List Recipient :=
  recipients.filter (fun r => r.checked && r.valid)

/-- `RecipientManager.add_recipient` on the stored list: walk the list;
the first recipient with the given email is updated in place (name and
checked flag replaced, validity recomputed from its unchanged email) and
the tail is kept; if no recipient has that email, a new record is
appended at the end. -/
def add_recipient : List Recipient → String → String → Bool → List Recipient
  | [], name, email, checked => [mkRecipient name email checked]
  | r :: rest, name, email, checked =>
      if r.email == email then
        { r with name := name, checked := checked,
                 valid := validate_email r.email } :: rest
      else r :: add_recipient rest name email checked

/-! ## Derived notions used by the statements -/

/-- The stage invocations recorded in a trace, in order. -/
def invokes (t : List Ev) : List Stage :=
  t.filterMap (fun e =>
    match e with
    | Ev.invoke s => some s
    | Ev.completed _ _ => none)

/-- The environments in which the sequence fails at stage `s` (immediate
false return or completion signal with `success = false`), all earlier
stages having succeeded. -/
def failsAt (env : Env) : Stage → Prop
  | Stage.capture => env.captureOk = false
  | Stage.claude =>
      env.captureOk = true ∧
        (env.claudeImmediateOk = false ∨ env.claudeAsyncOk = false)
  | Stage.email =>
      env.captureOk = true ∧ env.claudeImmediateOk = true ∧
        env.claudeAsyncOk = true ∧
        (env.emailSenderOk = false ∨ env.contentOk = false ∨
          env.recipients = 0 ∨ ∃ i < env.recipients, env.emailSendOk i = false)

/-- The stages invoked when the sequence runs up to (and including)
stage `s`. -/
def stagesThrough : Stage → List Stage
  | Stage.capture => [Stage.capture]
  | Stage.claude => [Stage.capture, Stage.claude]
  | Stage.email => [Stage.capture, Stage.claude, Stage.email]

/-! ## Helper lemmas -/

lemma flatMap_send_email (env : Env) (l : List Nat) :
    (l.flatMap fun i => send_email_async env i true) =
      l.map fun i => Sig.emailCompleted (env.emailSendOk i) := by
  induction l with
  | nil => rfl
  | cons i l ih => rw [List.flatMap_cons, ih]; simp [send_email_async]

lemma dispatch_email_loop (f : Nat → Bool) (l : List Nat) :
    ∀ st : St, l ≠ [] →
      dispatchAll st (l.map fun i => Sig.emailCompleted (f i)) =
        { sequence_in_progress := false,
          pending := st.pending,
          trace := st.trace ++ l.map fun i => Ev.completed Stage.email (f i) } := by
  induction l with
  | nil => intro st h; exact absurd rfl h
  | cons i l ih =>
    intro st _
    have hstep : dispatchAll st ((i :: l).map fun i => Sig.emailCompleted (f i)) =
        dispatchAll (on_email_completed (f i) st)
          (l.map fun i => Sig.emailCompleted (f i)) := by
      simp [dispatchAll, dispatchSig]
    rw [hstep]
    cases l with
    | nil => simp [dispatchAll, on_email_completed]
    | cons j l2 =>
        rw [ih (on_email_completed (f i) st) (by simp)]
        simp [on_email_completed]

lemma invokes_append (t1 t2 : List Ev) :
    invokes (t1 ++ t2) = invokes t1 ++ invokes t2 := by
  simp [invokes]

lemma invokes_email_completions (f : Nat → Bool) (l : List Nat) :
    invokes (l.map fun i => Ev.completed Stage.email (f i)) = [] := by
  induction l with
  | nil => rfl
  | cons i l ih => simpa only [List.map_cons, invokes, List.filterMap_cons] using ih

/-- The state reached just after the claude stage has completed
successfully, with `start_email_sending` pending. -/
def stAfterClaude : St :=
  { sequence_in_progress := true,
    pending := [SchedTask.startEmail],
    trace := [Ev.invoke Stage.capture, Ev.completed Stage.capture true,
              Ev.invoke Stage.claude, Ev.completed Stage.claude true] }

lemma run_to_claude_done (env : Env) (hc : env.captureOk = true)
    (hci : env.claudeImmediateOk = true) (hca : env.claudeAsyncOk = true) :
    run env 3 (trigger_action_sequence initSt) = stAfterClaude := by
  simp [run, step, runTask, trigger_action_sequence, initSt, start_capture,
    capture_screen, dispatchAll, dispatchSig, on_capture_completed,
    start_claude_analysis, send_to_claude, send_to_claude_async,
    on_claude_completed, hc, hci, hca, stAfterClaude]

lemma send_by_email_ok (env : Env) (hes : env.emailSenderOk = true)
    (hco : env.contentOk = true) (hr : env.recipients ≠ 0) :
    send_by_email env true =
      ((List.range env.recipients).map fun i =>
        Sig.emailCompleted (env.emailSendOk i), true) := by
  simp [send_by_email, hes, hco, hr, flatMap_send_email]

lemma runFull_all_success (env : Env) (hc : env.captureOk = true)
    (hci : env.claudeImmediateOk = true) (hca : env.claudeAsyncOk = true)
    (hes : env.emailSenderOk = true) (hco : env.contentOk = true)
    (hr : 0 < env.recipients) :
    runFull env =
      { sequence_in_progress := false,
        pending := [],
        trace := [Ev.invoke Stage.capture, Ev.completed Stage.capture true,
                  Ev.invoke Stage.claude, Ev.completed Stage.claude true,
                  Ev.invoke Stage.email] ++
          ((List.range env.recipients).map fun i =>
            Ev.completed Stage.email (env.emailSendOk i)) } := by
  have hr0 : env.recipients ≠ 0 := Nat.pos_iff_ne_zero.mp hr
  have hrange : List.range env.recipients ≠ [] := by
    simpa [List.range_eq_nil] using hr0
  show step env (run env 3 (trigger_action_sequence initSt)) = _
  rw [run_to_claude_done env hc hci hca]
  simp only [step, stAfterClaude, runTask, start_email_sending,
    send_by_email_ok env hes hco hr0]
  rw [if_neg (by simp : ¬(true = false))]
  rw [dispatch_email_loop env.emailSendOk (List.range env.recipients) _ hrange]
  simp

lemma runFull_capture_fail (env : Env) (hc : env.captureOk = false) :
    runFull env =
      { sequence_in_progress := false,
        pending := [],
        trace := [Ev.invoke Stage.capture,
                  Ev.completed Stage.capture false] } := by
  simp [runFull, run, step, runTask, trigger_action_sequence, initSt,
    start_capture, capture_screen, dispatchAll, dispatchSig,
    on_capture_completed, hc]

lemma runFull_claude_imm_fail (env : Env) (hc : env.captureOk = true)
    (hci : env.claudeImmediateOk = false) :
    runFull env =
      { sequence_in_progress := false,
        pending := [],
        trace := [Ev.invoke Stage.capture, Ev.completed Stage.capture true,
                  Ev.invoke Stage.claude,
                  Ev.completed Stage.claude false] } := by
  simp [runFull, run, step, runTask, trigger_action_sequence, initSt,
    start_capture, capture_screen, dispatchAll, dispatchSig,
    on_capture_completed, start_claude_analysis, send_to_claude,
    on_claude_completed, hc, hci]

lemma runFull_claude_async_fail (env : Env) (hc : env.captureOk = true)
    (hci : env.claudeImmediateOk = true) (hca : env.claudeAsyncOk = false) :
    runFull env =
      { sequence_in_progress := false,
        pending := [],
        trace := [Ev.invoke Stage.capture, Ev.completed Stage.capture true,
                  Ev.invoke Stage.claude,
                  Ev.completed Stage.claude false] } := by
  simp [runFull, run, step, runTask, trigger_action_sequence, initSt,
    start_capture, capture_screen, dispatchAll, dispatchSig,
    on_capture_completed, start_claude_analysis, send_to_claude,
    send_to_claude_async, on_claude_completed, hc, hci, hca]

lemma send_by_email_imm_fail (env : Env)
    (h : env.emailSenderOk = false ∨ env.contentOk = false ∨
      env.recipients = 0) :
    ∀ e : Bool, send_by_email env e = ([Sig.emailCompleted false], false) := by
  intro e
  unfold send_by_email
  split_ifs with h1 h2 h3
  · rfl
  · rfl
  · rfl
  · rcases h with h | h | h
    · exact absurd h h1
    · exact absurd h h2
    · exact absurd h h3

lemma runFull_email_imm_fail (env : Env) (hc : env.captureOk = true)
    (hci : env.claudeImmediateOk = true) (hca : env.claudeAsyncOk = true)
    (h : env.emailSenderOk = false ∨ env.contentOk = false ∨
      env.recipients = 0) :
    runFull env =
      { sequence_in_progress := false,
        pending := [],
        trace := [Ev.invoke Stage.capture, Ev.completed Stage.capture true,
                  Ev.invoke Stage.claude, Ev.completed Stage.claude true,
                  Ev.invoke Stage.email,
                  Ev.completed Stage.email false] } := by
  show step env (run env 3 (trigger_action_sequence initSt)) = _
  rw [run_to_claude_done env hc hci hca]
  simp [step, stAfterClaude, runTask, start_email_sending,
    send_by_email_imm_fail env h, dispatchAll, dispatchSig,
    on_email_completed]

/-- The email stage runs and the sequence ends idle whenever the first two
stages succeed, whatever the email collaborator does. -/
lemma runFull_email_stage (env : Env) (hc : env.captureOk = true)
    (hci : env.claudeImmediateOk = true) (hca : env.claudeAsyncOk = true) :
    (runFull env).sequence_in_progress = false ∧
    (runFull env).pending = [] ∧
    invokes (runFull env).trace =
      [Stage.capture, Stage.claude, Stage.email] := by
  by_cases himm : env.emailSenderOk = false ∨ env.contentOk = false ∨
      env.recipients = 0
  · rw [runFull_email_imm_fail env hc hci hca himm]
    refine ⟨rfl, rfl, ?_⟩
    rfl
  · push_neg at himm
    obtain ⟨h1, h2, h3⟩ := himm
    have hes : env.emailSenderOk = true := by
      cases henv : env.emailSenderOk
      · exact absurd henv h1
      · rfl
    have hco : env.contentOk = true := by
      cases henv : env.contentOk
      · exact absurd henv h2
      · rfl
    have hr : 0 < env.recipients := Nat.pos_of_ne_zero h3
    rw [runFull_all_success env hc hci hca hes hco hr]
    refine ⟨rfl, rfl, ?_⟩
    show invokes (_ ++ _) = _
    rw [invokes_append, invokes_email_completions]
    rfl

/-! ## Claim theorems -/

/-- C1: Within one triggered sequence the three stages execute strictly in
order capture → analyze → email.  On the all-success path the observed
event trace is exactly: capture invoked, capture completed with
`success = true`, analysis invoked, analysis completed with
`success = true`, email invoked, then the email completion signals (one
per recipient) — so the analysis stage starts only after the capture
success signal is observed and the email stage only after the analysis
success signal; each stage is invoked exactly once
(`invokes … = [capture, claude, email]`); and the final state is `Idle`
(`sequence_in_progress = false`) with the event queue drained. -/
theorem sequence_all_success_ordering (env : Env)
    (hc : env.captureOk = true) (hci : env.claudeImmediateOk = true)
    (hca : env.claudeAsyncOk = true) (hes : env.emailSenderOk = true)
    (hco : env.contentOk = true) (hr : 0 < env.recipients) :
    (runFull env).sequence_in_progress = false ∧
    (runFull env).pending = [] ∧
    (runFull env).trace =
      [Ev.invoke Stage.capture, Ev.completed Stage.capture true,
       Ev.invoke Stage.claude, Ev.completed Stage.claude true,
       Ev.invoke Stage.email] ++
        ((List.range env.recipients).map fun i =>
          Ev.completed Stage.email (env.emailSendOk i)) ∧
    invokes (runFull env).trace =
      [Stage.capture, Stage.claude, Stage.email] := by
  rw [runFull_all_success env hc hci hca hes hco hr]
  refine ⟨rfl, rfl, rfl, ?_⟩
  show invokes (_ ++ _) = _
  rw [invokes_append, invokes_email_completions]
  rfl

/-- Witness for C1 at a concrete all-success environment with one
recipient. -/
theorem sequence_all_success_ordering_witness :
    (runFull ⟨true, true, true, true, true, 1, fun _ => true⟩).sequence_in_progress = false ∧
    (runFull ⟨true, true, true, true, true, 1, fun _ => true⟩).pending = [] ∧
    (runFull ⟨true, true, true, true, true, 1, fun _ => true⟩).trace =
      [Ev.invoke Stage.capture, Ev.completed Stage.capture true,
       Ev.invoke Stage.claude, Ev.completed Stage.claude true,
       Ev.invoke Stage.email] ++
        ((List.range 1).map fun _ => Ev.completed Stage.email true) ∧
    invokes (runFull ⟨true, true, true, true, true, 1, fun _ => true⟩).trace =
      [Stage.capture, Stage.claude, Stage.email] :=
  sequence_all_success_ordering ⟨true, true, true, true, true, 1, fun _ => true⟩
    rfl rfl rfl rfl rfl (by decide)

/-- C2: While a sequence is in flight (`sequence_in_progress = true`),
`trigger_action_sequence` is a no-op: the whole state — flag, scheduled
tasks and trace — is unchanged, so nothing is re-invoked and the request
is dropped rather than queued; hence at most one sequence is in flight at
a time. -/
theorem trigger_in_flight_noop (st : St)
    (h : st.sequence_in_progress = true) :
    trigger_action_sequence st = st := by
  simp [trigger_action_sequence, h]

/-- Witness for C2 at a concrete busy state. -/
theorem trigger_in_flight_noop_witness :
    trigger_action_sequence
        { sequence_in_progress := true,
          pending := [SchedTask.startClaude],
          trace := [Ev.invoke Stage.capture] } =
      { sequence_in_progress := true,
        pending := [SchedTask.startClaude],
        trace := [Ev.invoke Stage.capture] } :=
  trigger_in_flight_noop _ rfl

/-- C3: When the sequence fails at stage `s` — an immediate `false`
return from the stage call or a completion signal with
`success = false` — the coordinator aborts: the final state is `Idle`
(`sequence_in_progress = false`), the event queue is drained, and exactly
the stages up to and including `s` were ever invoked; in particular a
capture failure means the analysis and email stages are never invoked. -/
theorem abort_leaves_idle (env : Env) (s : Stage) (h : failsAt env s) :
    (runFull env).sequence_in_progress = false ∧
    (runFull env).pending = [] ∧
    invokes (runFull env).trace = stagesThrough s := by
  cases s with
  | capture =>
      rw [runFull_capture_fail env h]
      exact ⟨rfl, rfl, rfl⟩
  | claude =>
      obtain ⟨hc, hrest⟩ := h
      rcases hrest with hci | hca
      · rw [runFull_claude_imm_fail env hc hci]
        exact ⟨rfl, rfl, rfl⟩
      · cases hci2 : env.claudeImmediateOk
        · rw [runFull_claude_imm_fail env hc hci2]
          exact ⟨rfl, rfl, rfl⟩
        · rw [runFull_claude_async_fail env hc hci2 hca]
          exact ⟨rfl, rfl, rfl⟩
  | email =>
      obtain ⟨hc, hci, hca, _⟩ := h
      exact runFull_email_stage env hc hci hca

/-- Witness for C3: capture fails immediately, only the capture stage is
ever invoked. -/
theorem abort_leaves_idle_witness :
    (runFull ⟨false, true, true, true, true, 1, fun _ => true⟩).sequence_in_progress = false ∧
    (runFull ⟨false, true, true, true, true, 1, fun _ => true⟩).pending = [] ∧
    invokes (runFull ⟨false, true, true, true, true, 1, fun _ => true⟩).trace =
      stagesThrough Stage.capture :=
  abort_leaves_idle ⟨false, true, true, true, true, 1, fun _ => true⟩
    Stage.capture rfl

/-- C4: On release of the current activation key with a tracked press
(hold duration `now - p`) and the hotkey feature enabled, the sequence is
triggered if and only if the hold duration reaches the configured
threshold: holding exactly the threshold triggers, any strictly shorter
hold does not. -/
theorem hold_threshold_trigger_iff (cfg : HotkeyConfig) (m : Nat)
    (now p : ℚ) (key : String) (st : KeyTracker)
    (hen : is_enabled cfg = true)
    (hl : st.key_press_times.lookup key = some p)
    (hk : key = get_activation_key m) :
    ((on_key_release cfg m now key st).2 = true ↔
      now - p ≥ get_hold_duration cfg) := by
  subst hk
  simp only [on_key_release, hen, hl]
  rw [if_neg (by simp)]
  split_ifs with hcond
  · exact iff_of_true rfl hcond.2
  · exact iff_of_false (by simp) fun hdur => hcond ⟨trivial, hdur⟩

/-- Witness for C4: release of the key `'3'` at minute 3 after a hold of
length exactly the default threshold 2 triggers. -/
theorem hold_threshold_trigger_iff_witness :
    ((on_key_release ⟨none, none⟩ 3 2 "3" ⟨[("3", 0)]⟩).2 = true ↔
      (2 : ℚ) - 0 ≥ get_hold_duration ⟨none, none⟩) :=
  hold_threshold_trigger_iff ⟨none, none⟩ 3 2 0 "3" ⟨[("3", 0)]⟩
    rfl rfl rfl

/-- C5: The activation key is `str(minute mod 10)` and is recomputed at
the key-release check: for a release at wall-clock minute `m`, the
released key is compared against `toString (m % 10)` — the release-time
minute's ones digit.  The press-time minute does not occur in the
tracker state at all (only the press timestamp does), so a hold that
crosses a minute boundary is judged against the release-time activation
key. -/
theorem activation_key_release_minute (cfg : HotkeyConfig) (m : Nat)
    (now p : ℚ) (key : String) (st : KeyTracker)
    (hen : is_enabled cfg = true)
    (hl : st.key_press_times.lookup key = some p) :
    get_activation_key m = toString (m % 10) ∧
    ((on_key_release cfg m now key st).2 = true ↔
      (key = toString (m % 10) ∧ now - p ≥ get_hold_duration cfg)) := by
  refine ⟨rfl, ?_⟩
  simp only [on_key_release, hen, hl]
  rw [if_neg (by simp)]
  split_ifs with hcond
  · exact iff_of_true rfl hcond
  · exact iff_of_false (by simp) hcond

/-- Witness for C5: a key pressed while the minute ended in 3 but
released at minute 14 is judged against activation key `'4'`. -/
theorem activation_key_release_minute_witness :
    get_activation_key 14 = toString (14 % 10) ∧
    ((on_key_release ⟨none, none⟩ 14 3 "4" ⟨[("4", 0)]⟩).2 = true ↔
      ("4" = toString (14 % 10) ∧ (3 : ℚ) - 0 ≥ get_hold_duration ⟨none, none⟩)) :=
  activation_key_release_minute ⟨none, none⟩ 14 3 0 "4" ⟨[("4", 0)]⟩ rfl rfl

lemma lookup_none_not_mem (k : String) :
    ∀ l : List (String × ℚ), l.lookup k = none → k ∉ l.map Prod.fst := by
  intro l
  induction l with
  | nil => intro _; simp
  | cons a l ih =>
      intro h
      obtain ⟨k2, v⟩ := a
      by_cases hk : (k == k2) = true
      · simp [List.lookup, hk] at h
      · have hk' : (k == k2) = false := by simpa using hk
        simp only [List.lookup, hk'] at h
        simp only [List.map_cons, List.mem_cons]
        rintro (he | he)
        · rw [he] at hk'
          simp at hk'
        · exact ih h he

/-- C7: `on_key_press` is idempotent on repeated down-events for an
already-tracked key — the state (in particular the recorded press
timestamp) is left completely unchanged, no overwrite — and it preserves
the at-most-one-record-per-key invariant (pairwise distinct keys in
`key_press_times`). -/
theorem key_press_idempotent_unique :
    (∀ (cfg : HotkeyConfig) (now : ℚ) (key : String) (p : ℚ)
        (st : KeyTracker),
      st.key_press_times.lookup key = some p →
      on_key_press cfg now key st = st) ∧
    (∀ (cfg : HotkeyConfig) (now : ℚ) (key : String) (st : KeyTracker),
      (st.key_press_times.map Prod.fst).Nodup →
      ((on_key_press cfg now key st).key_press_times.map Prod.fst).Nodup) := by
  constructor
  · intro cfg now key p st h
    unfold on_key_press
    split_ifs with h1 h2
    · rfl
    · rw [h]
    · rfl
  · intro cfg now key st h
    unfold on_key_press
    split_ifs with h1 h2
    · exact h
    · cases hl : st.key_press_times.lookup key with
      | some q => exact h
      | none =>
          have hnm := lookup_none_not_mem key st.key_press_times hl
          simp only [List.map_append, List.map_cons, List.map_nil]
          rw [List.nodup_append]
          exact ⟨h, List.nodup_singleton key, by simpa using hnm⟩
    · exact h

/-- Witness for C7: a second down-event on the held key `'3'` changes
nothing; a down-event on `'4'` keeps the keys pairwise distinct. -/
theorem key_press_idempotent_unique_witness :
    on_key_press ⟨none, none⟩ 5 "3" ⟨[("3", 0)]⟩ = ⟨[("3", 0)]⟩ ∧
    ((on_key_press ⟨none, none⟩ 5 "4" ⟨[("3", 0)]⟩).key_press_times.map
      Prod.fst).Nodup :=
  ⟨key_press_idempotent_unique.1 ⟨none, none⟩ 5 "3" 0 ⟨[("3", 0)]⟩ rfl,
   key_press_idempotent_unique.2 ⟨none, none⟩ 5 "4" ⟨[("3", 0)]⟩ (by decide)⟩

/-- C8: `get_checked_recipients` returns exactly the stored recipients
that are checked and whose email passed validation; on the store
`"Al,al@x.com,true"`, `"Bo,not-an-email,true"` it returns only Al —
Bo is checked but `not-an-email` fails the validity check. -/
theorem checked_recipients_filter :
    (∀ (rs : List Recipient) (r : Recipient),
      r ∈ get_checked_recipients rs ↔
        r ∈ rs ∧ r.checked = true ∧ r.valid = true) ∧
    get_checked_recipients
        (load_recipients ["Al,al@x.com,true", "Bo,not-an-email,true"]) =
      [{ name := "Al", email := "al@x.com", checked := true, valid := true }] := by
  constructor
  · intro rs r
    simp [get_checked_recipients, List.mem_filter, and_assoc]
  · decide

/-- C6 counterexample: `send_to_claude` invoked with completion
signalling requested and an immediately-failing collaborator returns
`false` on the same call stack AND emits a `claude_completed` completion
signal — the claim that an immediate failure "produces no completion
signal for that stage" is false on the code. -/
theorem immediate_failure_signal_ctrex :
    (send_to_claude ⟨true, false, true, true, true, 1, fun _ => true⟩
      true).2.2 = false ∧
    (send_to_claude ⟨true, false, true, true, true, 1, fun _ => true⟩
      true).1 ≠ [] := by
  exact ⟨rfl, by decide⟩

/-- C6 amended: for every stage invoked with completion signalling
requested, an immediate failure is surfaced as a same-call-stack `false`
return AND additionally emits that stage's completion signal with
`success = false`: the capture stage always emits its result signal (even
on failure), the analysis stage emits `claude_completed(false)` on
immediate failure, and the email stage emits `email_completed(false)` on
immediate failure — for email even when signalling was not requested. -/
theorem immediate_failure_emits_signal (env : Env) :
    capture_screen env true =
      ([Sig.captureCompleted env.captureOk], env.captureOk) ∧
    (env.claudeImmediateOk = false →
      send_to_claude env true = ([Sig.claudeCompleted false], [], false)) ∧
    ((env.emailSenderOk = false ∨ env.contentOk = false ∨
        env.recipients = 0) →
      ∀ e : Bool, send_by_email env e = ([Sig.emailCompleted false], false)) := by
  refine ⟨rfl, ?_, fun h => send_by_email_imm_fail env h⟩
  intro hci
  simp [send_to_claude, hci]

/-- Witness for the amended C6 at an environment where every stage would
fail immediately. -/
theorem immediate_failure_emits_signal_witness :
    capture_screen ⟨false, false, true, false, true, 1, fun _ => true⟩ true =
      ([Sig.captureCompleted false], false) ∧
    send_to_claude ⟨false, false, true, false, true, 1, fun _ => true⟩ true =
      ([Sig.claudeCompleted false], [], false) ∧
    send_by_email ⟨false, false, true, false, true, 1, fun _ => true⟩ true =
      ([Sig.emailCompleted false], false) :=
  ⟨(immediate_failure_emits_signal
      ⟨false, false, true, false, true, 1, fun _ => true⟩).1,
   (immediate_failure_emits_signal
      ⟨false, false, true, false, true, 1, fun _ => true⟩).2.1 rfl,
   (immediate_failure_emits_signal
      ⟨false, false, true, false, true, 1, fun _ => true⟩).2.2
     (Or.inl rfl) true⟩

/-- C9 counterexample: a present but malformed `enabled` value (here
`"yes"`): the claim says `is_enabled` falls back to the default `true`,
but the code yields `false` (`"yes".lower() == 'true'` fails). -/
theorem config_enabled_default_ctrex :
    ¬(is_enabled { enabled := some "yes", hold_duration := none } = true) := by
  decide

/-- C9 amended: a missing or unparseable stored `hold_duration` falls
back to the default 2.0 seconds, and a missing `enabled` flag falls back
to the default `true`; but a present `enabled` value is simply compared
case-insensitively against `'true'`, so a malformed value yields
disabled (`false`), not the default. -/
theorem config_defaults_amended (cfg : HotkeyConfig) :
    ((cfg.hold_duration = none ∨
        (∃ s, cfg.hold_duration = some s ∧ pyFloat s = none)) →
      get_hold_duration cfg = 2) ∧
    (cfg.enabled = none → is_enabled cfg = true) ∧
    (∀ s, cfg.enabled = some s →
      is_enabled cfg = (pyLower s.toList == "true".toList)) := by
  refine ⟨?_, ?_, ?_⟩
  · rintro (h | ⟨s, hs, hp⟩)
    · simp [get_hold_duration, h, DEFAULT_HOLD_DURATION]
    · simp [get_hold_duration, hs, hp, DEFAULT_HOLD_DURATION]
  · intro h
    simp [is_enabled, h]
  · intro s h
    simp [is_enabled, h]

/-- Witness for the amended C9 at concrete malformed and missing stored
values. -/
theorem config_defaults_amended_witness :
    get_hold_duration ⟨some "yes", some "oops"⟩ = 2 ∧
    is_enabled ⟨none, none⟩ = true ∧
    is_enabled ⟨some "yes", some "oops"⟩ =
      (pyLower "yes".toList == "true".toList) :=
  ⟨(config_defaults_amended ⟨some "yes", some "oops"⟩).1
      (Or.inr ⟨"oops", rfl, by decide⟩),
   (config_defaults_amended ⟨none, none⟩).2.1 rfl,
   (config_defaults_amended ⟨some "yes", some "oops"⟩).2.2 "yes" rfl⟩

lemma add_recipient_email_mem (name email : String) (c : Bool) :
    ∀ rs : List Recipient, email ∈ rs.map Recipient.email →
      (add_recipient rs name email c).map Recipient.email =
        rs.map Recipient.email := by
  intro rs
  induction rs with
  | nil => simp
  | cons r rest ih =>
      intro hmem
      by_cases he : (r.email == email) = true
      · simp [add_recipient, he]
      · have he' : r.email ≠ email := by simpa using he
        simp only [List.map_cons, List.mem_cons] at hmem
        rcases hmem with hmem | hmem
        · exact absurd hmem.symm he'
        · simp [add_recipient, he, ih hmem]

lemma add_recipient_email_not_mem (name email : String) (c : Bool) :
    ∀ rs : List Recipient, email ∉ rs.map Recipient.email →
      (add_recipient rs name email c).map Recipient.email =
        rs.map Recipient.email ++ [email] := by
  intro rs
  induction rs with
  | nil => simp [add_recipient, mkRecipient]
  | cons r rest ih =>
      intro hmem
      simp only [List.map_cons, List.mem_cons] at hmem
      push_neg at hmem
      obtain ⟨h1, h2⟩ := hmem
      have he : (r.email == email) = false := by
        simp
        exact fun hh => h1 hh.symm
      simp [add_recipient, he, ih h2]

/-- C10: `add_recipient` preserves pairwise-distinct emails: when the
email already exists, the matching recipient is updated in place and the
email list is unchanged (nothing is appended); when it does not, exactly
the new email is appended — in both cases distinctness of the stored
emails is preserved. -/
theorem add_recipient_unique_emails (rs : List Recipient)
    (name email : String) (c : Bool)
    (h : (rs.map Recipient.email).Nodup) :
    ((add_recipient rs name email c).map Recipient.email).Nodup ∧
    (email ∈ rs.map Recipient.email →
      (add_recipient rs name email c).map Recipient.email =
        rs.map Recipient.email) := by
  by_cases hm : email ∈ rs.map Recipient.email
  · rw [add_recipient_email_mem name email c rs hm]
    exact ⟨h, fun _ => rfl⟩
  · rw [add_recipient_email_not_mem name email c rs hm]
    refine ⟨?_, fun hmem => absurd hmem hm⟩
    simp [List.nodup_append, h, hm]

/-- Witness for C10: adding a recipient whose email is already stored
updates in place and keeps the email list unchanged and duplicate-free. -/
theorem add_recipient_unique_emails_witness :
    ((add_recipient [mkRecipient "Al" "al@x.com" true] "Al2" "al@x.com"
        false).map Recipient.email).Nodup ∧
    (add_recipient [mkRecipient "Al" "al@x.com" true] "Al2" "al@x.com"
        false).map Recipient.email =
      [mkRecipient "Al" "al@x.com" true].map Recipient.email :=
  ⟨(add_recipient_unique_emails [mkRecipient "Al" "al@x.com" true]
      "Al2" "al@x.com" false (by decide)).1,
   (add_recipient_unique_emails [mkRecipient "Al" "al@x.com" true]
      "Al2" "al@x.com" false (by decide)).2 (by decide)⟩
